import Mathlib

/-!
Shallow embedding of the `flasche` virtual file system layer:
`vfs/transformer.go` (the compress/encrypt `Transformer` with its
`Write` / `Read` / `ReadAt` paths) and the segment record file
(`Segment`, its constructors, `Size`, `TTL` and the typed projections).

Bytes are modelled as `List Nat`; Go `error` values are modelled with an
explicit error type tagged by the stage that produced the error
(mirroring the distinct `fmt.Errorf` wrap messages of the source).
I/O devices are modelled as explicit state (stored bytes plus an
injectable device failure), and machine integers as `Nat`/`Int` with
explicit reduction modulo `2^32` / `2^64` where the Go code truncates.
-/

/-- Go errors produced by the transformer, tagged by the stage whose
`fmt.Errorf` wrap created them. -/
inductive GoError where
  | compressFailed (msg : String)
  | encryptFailed (msg : String)
  | writeFailed (msg : String)
  | readFailed (msg : String)
  | decryptFailed (msg : String)
  | decompressFailed (msg : String)
  deriving DecidableEq, Repr

/-- The `Compressor` interface of `transformer.go`: `Compress` and
`Decompress`, each returning bytes or an error. -/
structure Compressor where
  Compress : List Nat → Except String (List Nat)
  Decompress : List Nat → Except String (List Nat)

/-- The `Encryptor` interface of `transformer.go`: `Encode` and `Decode`,
each taking a secret and data. -/
structure Encryptor where
  Encode : List Nat → List Nat → Except String (List Nat)
  Decode : List Nat → List Nat → Except String (List Nat)

/-- Bit flag `EnabledEncryption = 1 << iota` (value 1). -/
def EnabledEncryption : Nat := 1

/-- Bit flag `EnabledCompression` (value 2). -/
def EnabledCompression : Nat := 2

/-- The `Transformer` struct: integer bit flags, the stored secret, and the
two optionally-bound capabilities (Go embeds the two interfaces; a nil
interface is `none`). -/
structure Transformer where
  flags : Nat
  secret : List Nat
  encryptor : Option Encryptor
  compressor : Option Compressor

/-- `NewTransformer`: zero flags, no capabilities bound. -/
def NewTransformer : Transformer :=
  { flags := 0, secret := [], encryptor := none, compressor := none }

/-- `t.flags |= EnabledEncryption`. -/
def Transformer.EnableEncryption (t : Transformer) : Transformer :=
  { t with flags := t.flags ||| EnabledEncryption }

/-- `t.flags |= EnabledCompression`. -/
def Transformer.EnableCompression (t : Transformer) : Transformer :=
  { t with flags := t.flags ||| EnabledCompression }

/-- `IsEncryptionEnabled`: `t.flags & EnabledEncryption != 0`. -/
def Transformer.IsEncryptionEnabled (t : Transformer) : Bool :=
  t.flags &&& EnabledEncryption != 0

/-- `IsCompressionEnabled`: `t.flags & EnabledCompression != 0`. -/
def Transformer.IsCompressionEnabled (t : Transformer) : Bool :=
  t.flags &&& EnabledCompression != 0

/-- `SetEncryptor`: rejects secrets shorter than 16 bytes, otherwise stores
the secret, binds the encryptor and sets the encryption flag.  Returns the
Go `error` result together with the post-call transformer state. -/
def Transformer.SetEncryptor (t : Transformer) (encryptor : Option Encryptor)
    (secret : List Nat) : Option String × Transformer :=
  if secret.length < 16 then
    (some ("secret char length too short"), t)
  else
    (none, { t with secret := secret, encryptor := encryptor,
                    flags := t.flags ||| EnabledEncryption })

/-- `SetCompressor`: binds the compressor and sets the compression flag. -/
def Transformer.SetCompressor (t : Transformer) (compressor : Option Compressor) :
    Transformer :=
  { t with compressor := compressor, flags := t.flags ||| EnabledCompression }

/-- Lift a capability error into the stage-tagged Go error
(the `fmt.Errorf("failed to ...: %w", err)` wraps). -/
def mapErr (f : String → GoError) : Except String (List Nat) → Except GoError (List Nat)
  | .ok d => .ok d
  | .error e => .error (f e)

/-- The compression stage of `Write`: runs `Compress` only when
`t.IsCompressionEnabled() && t.Compressor != nil`, else passes data through. -/
def compressStageW (t : Transformer) (data : List Nat) : Except GoError (List Nat) :=
  match t.compressor, t.IsCompressionEnabled with
  | some c, true => mapErr GoError.compressFailed (c.Compress data)
  | _, _ => .ok data

/-- The encryption stage of `Write`: runs `Encode(t.secret, ·)` only when
`t.IsEncryptionEnabled() && t.Encryptor != nil`, else passes data through. -/
def encryptStageW (t : Transformer) (data : List Nat) : Except GoError (List Nat) :=
  match t.encryptor, t.IsEncryptionEnabled with
  | some e, true => mapErr GoError.encryptFailed (e.Encode t.secret data)
  | _, _ => .ok data

/-- The pure prefix of `Transformer.Write`: compress (guarded), then
encrypt (guarded), aborting at the first failing stage. -/
def forwardTransform (t : Transformer) (data : List Nat) : Except GoError (List Nat) :=
  match compressStageW t data with
  | .error e => .error e
  | .ok d1 => encryptStageW t d1

/-- The decryption stage of `Read`/`ReadAt`: runs `Decode(t.secret, ·)` only
when `t.IsEncryptionEnabled() && t.Encryptor != nil`. -/
def decryptStageR (t : Transformer) (buf : List Nat) : Except GoError (List Nat) :=
  match t.encryptor, t.IsEncryptionEnabled with
  | some e, true => mapErr GoError.decryptFailed (e.Decode t.secret buf)
  | _, _ => .ok buf

/-- The decompression stage of `Read`/`ReadAt`: runs `Decompress` only when
`t.IsCompressionEnabled() && t.Compressor != nil`. -/
def decompressStageR (t : Transformer) (buf : List Nat) : Except GoError (List Nat) :=
  match t.compressor, t.IsCompressionEnabled with
  | some c, true => mapErr GoError.decompressFailed (c.Decompress buf)
  | _, _ => .ok buf

/-- A writable device (`io.ReadWriteCloser` used as sink): bytes stored so
far, plus an injectable write failure.  A successful Go `Write` reports
`len(data)` bytes written. -/
structure WDevice where
  contents : List Nat
  failWrite : Option String
  deriving Repr

/-- `Transformer.Write`: compress (guarded), then encrypt (guarded), then
`fd.Write`; each failure aborts with the stage's wrapped error and `0`,
leaving the device untouched.  On success returns the count reported by the
sink for the transformed bytes. -/
def Transformer.Write (t : Transformer) (fd : WDevice) (data : List Nat) :
    Except GoError Nat × WDevice :=
  match forwardTransform t data with
  | .error e => (.error e, fd)
  | .ok tb =>
    match fd.failWrite with
    | some msg => (.error (GoError.writeFailed msg), fd)
    | none => (.ok tb.length, { fd with contents := fd.contents ++ tb })

/-- A readable device (`io.ReadWriteCloser` used as source): the bytes the
device yields for the read call, plus an injectable read failure.  Go's
`fd.Read(buf)` fills a prefix of the zeroed buffer; the source discards the
returned count, so a short read leaves the zero padding in place. -/
structure RDevice where
  avail : List Nat
  failRead : Option String
  deriving Repr

/-- `Transformer.Read`: allocate a zeroed buffer of `bufsize`, `fd.Read`
into it (count discarded, only the error checked), then decrypt (guarded),
then decompress (guarded). -/
def Transformer.Read (t : Transformer) (fd : RDevice) (bufsize : Nat) :
    Except GoError (List Nat) :=
  match fd.failRead with
  | some msg => .error (GoError.readFailed msg)
  | none =>
    let filled := fd.avail.take bufsize
    let buf := filled ++ List.replicate (bufsize - filled.length) 0
    match decryptStageR t buf with
    | .error e => .error e
    | .ok b1 => decompressStageR t b1

/-- `Transformer.ReadAt` on an `os.File` modelled as its byte contents:
`ReadAt` reads `bufsize` bytes at `offset` and, per the `io.ReaderAt`
contract, returns a non-nil error whenever fewer than `bufsize` bytes are
available; then decompress (guarded), then decrypt (guarded) — note the
order is the reverse of `Transformer.Read`. -/
def Transformer.ReadAt (t : Transformer) (file : List Nat) (offset bufsize : Nat) :
    Except GoError (List Nat) :=
  let chunk := (file.drop offset).take bufsize
  if chunk.length < bufsize then .error (GoError.readFailed ("EOF"))
  else
    match decompressStageR t chunk with
    | .error e => .error e
    | .ok b1 => decryptStageR t b1

/-- The `Kind` enumeration of segment payload types (`int8` iota):
Set, ZSet, List, Text, Tables, Binary, Number, Unknown. -/
inductive Kind where
  | Set
  | ZSet
  | List
  | Text
  | Tables
  | Binary
  | Number
  | Unknown
  deriving DecidableEq, Repr

/-- The on-disk record
`| DEL 1 | KIND 1 | EAT 8 | CAT 8 | KLEN 8 | VLEN 8 | KEY ? | VALUE ? | CRC32 4 |`.
`Typ` models the Go field `Type` (a Lean keyword); `Tombstone` is the
`int8` flag, `ExpiredAt`/`CreatedAt` are `uint64` second timestamps, and
`KeySize`/`ValueSize` are `uint32` lengths. -/
structure Segment where
  Tombstone : Nat
  Typ : Kind
  ExpiredAt : Nat
  CreatedAt : Nat
  KeySize : Nat
  ValueSize : Nat
  Key : List Nat
  Value : List Nat
  deriving DecidableEq, Repr

/-- Go's `int64(n)` cast of a `uint64` value `n`. -/
def toInt64 (n : Nat) : Int :=
  if n < 2 ^ 63 then (n : Int) else (n : Int) - 2 ^ 64

/-- Go's wrapping `int64` arithmetic: reduce an integer into
`[-2^63, 2^63)`. -/
def wrap64 (z : Int) : Int :=
  (z + 2 ^ 63) % 2 ^ 64 - 2 ^ 63

/-- Go's `uint64(z)` cast of an `int64` value `z`. -/
def toUint64 (z : Int) : Nat :=
  (z % 2 ^ 64).toNat

/-- The expiry timestamp of `NewSegment`:
`uint64(time.Now().Add(time.Second * time.Duration(ttl)).Unix())`.
`time.Duration(ttl)` casts the `uint64` to `int64`; `time.Second * d` is a
wrapping `int64` multiplication by `10^9` (nanoseconds); `Add` then moves
the wall clock by that many nanoseconds, so `Unix()` of the result is
`now` plus the floor of the duration in seconds (faithful whenever the
resulting wall-clock seconds stay inside `int64`, which holds for every
real clock value; Go's `Time` saturates only beyond that). -/
def expiryOf (now ttl : Nat) : Nat :=
  toUint64 (((now % 2 ^ 64 : Nat) : Int) +
    Int.fdiv (wrap64 (1000000000 * toInt64 (ttl % 2 ^ 64))) 1000000000)

/-- `NewSegment`.  The `Serializable` argument is modelled by the `Kind`
that `toKind` assigns to it (`Kind.Unknown` for the error branch) together
with its `ToBSON()` bytes; the package-level `transformer.Encode` (declared
outside this repository's sources) is passed in as `encode`; `time.Now` is
passed in as `now` (seconds, `uint64`), and the expiry timestamp is
`expiryOf now ttl` when `ttl > 0`, else `0`. -/
def NewSegment (encode : List Nat → Except String (List Nat)) (key : List Nat)
    (kind : Kind) (bson : List Nat) (now ttl : Nat) : Except String Segment :=
  if kind = Kind.Unknown then
    .error ("unsupported data type: unknown data type")
  else
    match encode bson with
    | .error e => .error ("transformer encode: " ++ e)
    | .ok encodedata =>
      .ok { Typ := kind
            Tombstone := 0
            CreatedAt := now % 2 ^ 64
            ExpiredAt := if ttl % 2 ^ 64 > 0 then expiryOf now ttl else 0
            KeySize := key.length % 2 ^ 32
            ValueSize := encodedata.length % 2 ^ 32
            Key := key
            Value := encodedata }

/-- `NewTombstoneSegment`: `new(Segment)` (all fields zero — the zero `Kind`
is `Set`, the zero slice is empty), then `Key`, `Tombstone = 1` and
`KeySize` are set. -/
def NewTombstoneSegment (key : List Nat) : Segment :=
  { Tombstone := 1
    Typ := Kind.Set
    ExpiredAt := 0
    CreatedAt := 0
    KeySize := key.length % 2 ^ 32
    ValueSize := 0
    Key := key
    Value := [] }

/-- `IsTombstone`: `s.Tombstone == 1`. -/
def Segment.IsTombstone (s : Segment) : Bool :=
  s.Tombstone == 1

/-- `Size`: `26 + s.KeySize + s.ValueSize + 4` in `uint32` arithmetic
(26 bytes of fixed header, 4 bytes of CRC32). -/
def Segment.Size (s : Segment) : Nat :=
  (26 + s.KeySize + s.ValueSize + 4) % 2 ^ 32

/-- `TTL`: if `s.ExpiredAt > 0 && s.ExpiredAt > now`, return
`int64(s.ExpiredAt - now)` (`uint64` subtraction then `int64` cast),
else `-1`. -/
def Segment.TTL (s : Segment) (now : Nat) : Int :=
  if 0 < s.ExpiredAt ∧ now < s.ExpiredAt then
    toInt64 ((s.ExpiredAt - now) % 2 ^ 64)
  else
    -1

/-- Placeholder for the external `types.Set` (zero value is empty). -/
structure TypesSet where
  fields : List Nat
  deriving DecidableEq, Repr

/-- Placeholder for the external `types.ZSet`. -/
structure TypesZSet where
  fields : List Nat
  deriving DecidableEq, Repr

/-- Placeholder for the external `types.Text`. -/
structure TypesText where
  fields : List Nat
  deriving DecidableEq, Repr

/-- Placeholder for the external `types.List`. -/
structure TypesList where
  fields : List Nat
  deriving DecidableEq, Repr

/-- Placeholder for the external `types.Tables`. -/
structure TypesTables where
  fields : List Nat
  deriving DecidableEq, Repr

/-- Placeholder for the external `types.Binary`. -/
structure TypesBinary where
  fields : List Nat
  deriving DecidableEq, Repr

/-- Placeholder for the external `types.Number`. -/
structure TypesNumber where
  fields : List Nat
  deriving DecidableEq, Repr

/-- `ToSet`: on `Type != Set` return nil; otherwise return the address of a
zero-value `types.Set` (the source never touches `s.Value`). -/
def Segment.ToSet (s : Segment) : Option TypesSet :=
  if s.Typ ≠ Kind.Set then none
  else some { fields := [] }

/-- `ToZSet`: the source returns nil unconditionally. -/
def Segment.ToZSet (_ : Segment) : Option TypesZSet := none

/-- `ToText`: the source returns nil unconditionally. -/
def Segment.ToText (_ : Segment) : Option TypesText := none

/-- `ToList`: the source returns nil unconditionally. -/
def Segment.ToList (_ : Segment) : Option TypesList := none

/-- `ToTables`: the source returns nil unconditionally. -/
def Segment.ToTables (_ : Segment) : Option TypesTables := none

/-- `ToBinary`: the source returns nil unconditionally. -/
def Segment.ToBinary (_ : Segment) : Option TypesBinary := none

/-- `ToNumber`: the source returns nil unconditionally. -/
def Segment.ToNumber (_ : Segment) : Option TypesNumber := none

/-- A compressor that prepends a marker byte; its `Decompress` drops it
(a left inverse of `Compress`). -/
def comPrepend : Compressor :=
  { Compress := fun d => Except.ok (7 :: d)
    Decompress := fun d => Except.ok (d.drop 1) }

/-- An encryptor that reverses the data (its own left inverse). -/
def encReverse : Encryptor :=
  { Encode := fun _ d => Except.ok d.reverse
    Decode := fun _ d => Except.ok d.reverse }

/-- Concrete transformer for the round-trip witness: both stages active. -/
def tC1 : Transformer :=
  { flags := 3, secret := List.replicate 16 1,
    encryptor := some encReverse, compressor := some comPrepend }

/-- A second both-stages-active transformer, used to compare the two read
paths on identical source bytes. -/
def tC2 : Transformer :=
  { flags := 3, secret := List.replicate 16 0,
    encryptor := some encReverse, compressor := some comPrepend }

/-- Concrete segment whose `Type` is `ZSet`, with a non-empty `Value`. -/
def segC4 : Segment :=
  { Tombstone := 0, Typ := Kind.ZSet, ExpiredAt := 0, CreatedAt := 0,
    KeySize := 1, ValueSize := 3, Key := [1], Value := [1, 2, 3] }

/-- The same segment with `Type = Set`. -/
def segC4s : Segment :=
  { segC4 with Typ := Kind.Set }

/-- A compressor whose `Compress` always fails. -/
def comFail : Compressor :=
  { Compress := fun _ => Except.error ("boom")
    Decompress := fun d => Except.ok d }

/-- Transformer with compression enabled and the failing compressor bound. -/
def tC6 : Transformer :=
  { flags := 2, secret := [], encryptor := none, compressor := some comFail }

/-- Transformer with both flags enabled but no capability bound. -/
def tC7 : Transformer :=
  { flags := 3, secret := [], encryptor := none, compressor := none }

/-- Segment whose expiry timestamp makes `ExpiredAt - now` reach `2^63`. -/
def segC9 : Segment :=
  { Tombstone := 0, Typ := Kind.Set, ExpiredAt := 2 ^ 63, CreatedAt := 0,
    KeySize := 0, ValueSize := 0, Key := [], Value := [] }

/-- Segment expiring 10 seconds after creation, for the TTL witness. -/
def segC9w : Segment :=
  { Tombstone := 0, Typ := Kind.Set, ExpiredAt := 10, CreatedAt := 0,
    KeySize := 0, ValueSize := 0, Key := [], Value := [] }

/-- Identity `transformer.Encode` stand-in for the segment witness. -/
def encIdent : List Nat → Except String (List Nat) :=
  fun b => Except.ok b

/-- The segment `NewSegment encIdent [1, 2] Kind.Text [9] 5 0` produces. -/
def segW : Segment :=
  { Tombstone := 0, Typ := Kind.Text, ExpiredAt := 0, CreatedAt := 5,
    KeySize := 2, ValueSize := 1, Key := [1, 2], Value := [9] }

/-- Transformer with only compression active, bound to the prepending
compressor (which grows the data by one byte). -/
def tC10 : Transformer :=
  { flags := 2, secret := [], encryptor := none, compressor := some comPrepend }

/-- Claim C5: for every transformer state and every secret shorter than 16
bytes, `SetEncryptor` returns the configuration error and leaves the
transformer completely unchanged (flags, stored secret and bound encryptor
all keep their previous values). -/
theorem C5_setEncryptor_short_secret (t : Transformer) (enc : Option Encryptor)
    (secret : List Nat) (h : secret.length < 16) :
    t.SetEncryptor enc secret = (some ("secret char length too short"), t) := by
  simp [Transformer.SetEncryptor, h]

/-- Witness for C5 at a concrete transformer and a 3-byte secret. -/
theorem C5_witness :
    NewTransformer.SetEncryptor none [1, 2, 3] =
      (some ("secret char length too short"), NewTransformer) :=
  C5_setEncryptor_short_secret NewTransformer none [1, 2, 3] (by decide)

/-- Claim C4 (code evaluated at the failing input): a segment whose `Type`
is `ZSet` still gets `none` from `ToZSet` (the source returns nil
unconditionally), and `ToSet` on a matching segment returns the zero-value
set without reading `Value` at all — no pipeline reversal, no
deserialization. -/
theorem C4_projections_are_stubs :
    segC4.ToZSet = none ∧ segC4.Typ = Kind.ZSet ∧
    segC4s.ToSet = some { fields := [] } ∧ segC4s.Value = [1, 2, 3] := by
  refine ⟨rfl, rfl, ?_, rfl⟩
  simp [Segment.ToSet, segC4s, segC4]

/-- Counterexample to claim C9 as stated: with `ExpiredAt = 2^63` and
`now = 0` we have `ExpiredAt > 0` and `ExpiredAt > now`, yet `TTL` returns
a negative value (the `int64` cast of the `uint64` difference wraps), not
the strictly positive `ExpiredAt - now`. -/
theorem C9_counterexample :
    0 < segC9.ExpiredAt ∧ segC9.TTL 0 < 0 := by
  constructor
  · norm_num [segC9]
  · norm_num [segC9, Segment.TTL, toInt64]

/-- Claim C9 (amended), over the `uint64` field domain
(`ExpiredAt < 2^64`): when `ExpiredAt > 0`, `ExpiredAt > now` and the
difference is below `2^63`, `TTL` returns the strictly positive
`ExpiredAt - now`; when the difference reaches `2^63` the `int64` cast
wraps and `TTL` returns the negative `(ExpiredAt - now) - 2^64` (which at
difference `2^64 - 1` coincides with the sentinel `-1`); and `TTL` returns
`-1` both when `ExpiredAt = 0` and when `ExpiredAt <= now`. -/
theorem C9_TTL (s : Segment) (now : Nat) (h64 : s.ExpiredAt < 2 ^ 64) :
    (0 < s.ExpiredAt → now < s.ExpiredAt → s.ExpiredAt - now < 2 ^ 63 →
      s.TTL now = ((s.ExpiredAt - now : Nat) : Int) ∧ 0 < s.TTL now)
    ∧ (2 ^ 63 ≤ s.ExpiredAt - now →
      s.TTL now = ((s.ExpiredAt - now : Nat) : Int) - 2 ^ 64 ∧ s.TTL now < 0)
    ∧ (s.ExpiredAt = 0 → s.TTL now = -1)
    ∧ (s.ExpiredAt ≤ now → s.TTL now = -1) := by
  unfold Segment.TTL toInt64
  refine ⟨fun h1 h2 hlo => ?_, fun hw => ?_, fun h0 => ?_, fun hle => ?_⟩
  · rw [if_pos ⟨h1, h2⟩, Nat.mod_eq_of_lt (by omega), if_pos hlo]
    exact ⟨rfl, by exact_mod_cast Nat.sub_pos_of_lt h2⟩
  · have h2 : now < s.ExpiredAt := by omega
    have h1 : 0 < s.ExpiredAt := by omega
    have hd : s.ExpiredAt - now < 2 ^ 64 := by omega
    rw [if_pos ⟨h1, h2⟩, Nat.mod_eq_of_lt hd, if_neg (by omega)]
    refine ⟨rfl, ?_⟩
    have hdz : ((s.ExpiredAt - now : Nat) : Int) < 2 ^ 64 := by exact_mod_cast hd
    omega
  · rw [if_neg (by omega)]
  · rw [if_neg (by omega)]

/-- Witness for C9: a segment expiring at 10 read at time 3 has TTL 7, and
the wrap clause is exercised at `ExpiredAt = 2^63`, `now = 0`, where TTL is
the negative `2^63 - 2^64`. -/
theorem C9_witness :
    (segC9w.TTL 3 = ((7 : Nat) : Int) ∧ 0 < segC9w.TTL 3)
    ∧ (segC9.TTL 0 = ((2 ^ 63 : Nat) : Int) - 2 ^ 64 ∧ segC9.TTL 0 < 0) := by
  constructor
  · have h := (C9_TTL segC9w 3 (by norm_num [segC9w])).1
      (by norm_num [segC9w]) (by norm_num [segC9w]) (by norm_num [segC9w])
    simpa [segC9w] using h
  · exact (C9_TTL segC9 0 (by norm_num [segC9])).2.1 (by norm_num [segC9])

/-- Counterexample to claim C3 as stated: a device that yields zero bytes
with a nil error (a short read) does not make the stream `Read` fail — the
count returned by `fd.Read` is discarded, so `Read` happily returns the
zero-filled buffer. -/
theorem C3_counterexample :
    Transformer.Read NewTransformer { avail := [], failRead := none } 1 =
      Except.ok [0] := rfl

/-- Claim C3 (amended): `ReadAt` does fail with an I/O error whenever the
file holds fewer than `bufsize` bytes from `offset` (the `io.ReaderAt`
contract surfaces the shortfall as an error); the stream `Read`, however,
only fails when the device itself reports an error — a short read with a
nil error is silently tolerated and yields the zero-padded buffer. -/
theorem C3_short_reads (t : Transformer) (file : List Nat) (offset bufsize : Nat)
    (h : file.length - offset < bufsize) :
    t.ReadAt file offset bufsize = Except.error (GoError.readFailed ("EOF"))
    ∧ ∀ avail : List Nat, avail.length < bufsize →
        Transformer.Read NewTransformer { avail := avail, failRead := none } bufsize =
          Except.ok (avail ++ List.replicate (bufsize - avail.length) 0) := by
  constructor
  · have hlen : ((file.drop offset).take bufsize).length < bufsize := by
      simp only [List.length_take, List.length_drop]
      omega
    rw [Transformer.ReadAt]
    simp only [hlen, if_pos]
  · intro avail ha
    have htake : avail.take bufsize = avail :=
      List.take_of_length_le (le_of_lt ha)
    simp [Transformer.Read, NewTransformer, decryptStageR, decompressStageR, htake]

/-- Witness for C3: a one-byte file read with `bufsize = 3` makes `ReadAt`
fail, while the stream `Read` of a one-byte device yields a padded buffer. -/
theorem C3_witness :
    Transformer.ReadAt NewTransformer [1] 0 3 = Except.error (GoError.readFailed ("EOF"))
    ∧ Transformer.Read NewTransformer { avail := [5], failRead := none } 3 =
        Except.ok ([5] ++ List.replicate 2 0) := by
  have h := C3_short_reads NewTransformer [1] 0 3 (by decide)
  exact ⟨h.1, h.2 [5] (by decide)⟩

/-- Claim C2 is false on the code: on the same source bytes `[1, 2]` with
both stages active, the stream `Read` (decrypt, then decompress) returns
`[1]` while `ReadAt` (decompress, then decrypt) returns `[2]`. -/
theorem C2_counterexample :
    Transformer.Read tC2 { avail := [1, 2], failRead := none } 2 ≠
      Transformer.ReadAt tC2 [1, 2] 0 2 := by
  have h1 : Transformer.Read tC2 { avail := [1, 2], failRead := none } 2 =
      Except.ok [1] := rfl
  have h2 : Transformer.ReadAt tC2 [1, 2] 0 2 = Except.ok [2] := rfl
  rw [h1, h2]
  intro h
  injection h with h
  exact absurd h (by decide)

/-- If the bound encryptor's `Decode` (with the stored secret) is a left
inverse of its `Encode`, the read-side decryption stage undoes the
write-side encryption stage (both stages share the same flag-and-binding
guard on the same transformer). -/
theorem decryptStage_leftInverse (t : Transformer)
    (he : ∀ e, t.encryptor = some e → ∀ d d',
      e.Encode t.secret d = Except.ok d' → e.Decode t.secret d' = Except.ok d)
    (d d' : List Nat) (h : encryptStageW t d = Except.ok d') :
    decryptStageR t d' = Except.ok d := by
  unfold encryptStageW at h
  unfold decryptStageR
  cases henc : t.encryptor with
  | none =>
    rw [henc] at h
    simp only at h
    injection h with h
    subst h
    rfl
  | some e =>
    rw [henc] at h
    cases hfl : t.IsEncryptionEnabled with
    | false =>
      rw [hfl] at h
      simp only at h
      injection h with h
      subst h
      rfl
    | true =>
      rw [hfl] at h
      simp only at h
      cases hE : e.Encode t.secret d with
      | error msg => rw [hE] at h; exact Except.noConfusion h
      | ok dE =>
        rw [hE] at h
        injection h with h
        subst h
        simp only
        rw [he e henc d dE hE]
        rfl

/-- If the bound compressor's `Decompress` is a left inverse of its
`Compress`, the read-side decompression stage undoes the write-side
compression stage. -/
theorem decompressStage_leftInverse (t : Transformer)
    (hc : ∀ c, t.compressor = some c → ∀ d d',
      c.Compress d = Except.ok d' → c.Decompress d' = Except.ok d)
    (d d' : List Nat) (h : compressStageW t d = Except.ok d') :
    decompressStageR t d' = Except.ok d := by
  unfold compressStageW at h
  unfold decompressStageR
  cases hcom : t.compressor with
  | none =>
    rw [hcom] at h
    simp only at h
    injection h with h
    subst h
    rfl
  | some c =>
    rw [hcom] at h
    cases hfl : t.IsCompressionEnabled with
    | false =>
      rw [hfl] at h
      simp only at h
      injection h with h
      subst h
      rfl
    | true =>
      rw [hfl] at h
      simp only at h
      cases hC : c.Compress d with
      | error msg => rw [hC] at h; exact Except.noConfusion h
      | ok dC =>
        rw [hC] at h
        injection h with h
        subst h
        simp only
        rw [hc c hcom d dC hC]
        rfl

/-- Claim C1: for every payload and every transformer configuration (all
four flag combinations are instances) whose bound capabilities are left
inverses as stated, reading back through the stream `Read` — from a device
holding exactly the bytes `Write` stored, with the byte count `Write`
returned — recovers the original payload. -/
theorem C1_write_read_roundtrip (t : Transformer) (payload : List Nat)
    (hc : ∀ c, t.compressor = some c → ∀ d d',
      c.Compress d = Except.ok d' → c.Decompress d' = Except.ok d)
    (he : ∀ e, t.encryptor = some e → ∀ d d',
      e.Encode t.secret d = Except.ok d' → e.Decode t.secret d' = Except.ok d)
    (tb : List Nat) (n : Nat)
    (hw : t.Write { contents := [], failWrite := none } payload =
      (Except.ok n, { contents := tb, failWrite := none })) :
    Transformer.Read t { avail := tb, failRead := none } n = Except.ok payload := by
  unfold Transformer.Write at hw
  cases hf : forwardTransform t payload with
  | error e =>
    rw [hf] at hw
    simp only [Prod.mk.injEq] at hw
    exact Except.noConfusion hw.1
  | ok tb' =>
    rw [hf] at hw
    simp only [Prod.mk.injEq, WDevice.mk.injEq, List.nil_append] at hw
    obtain ⟨hn, htb, -⟩ := hw
    injection hn with hn
    subst hn
    subst htb
    unfold forwardTransform at hf
    cases hcs : compressStageW t payload with
    | error e => rw [hcs] at hf; exact Except.noConfusion hf
    | ok mid =>
      rw [hcs] at hf
      unfold Transformer.Read
      simp only [List.take_length, Nat.sub_self, List.replicate_zero, List.append_nil]
      rw [decryptStage_leftInverse t he mid tb' hf]
      exact decompressStage_leftInverse t hc payload mid hcs

/-- Witness for C1: both stages active (prepend-marker compression,
reversal encryption); the payload `[1, 2, 3]` is stored as `[3, 2, 1, 7]`
with count 4 and read back intact. -/
theorem C1_witness :
    Transformer.Read tC1 { avail := [3, 2, 1, 7], failRead := none } 4 =
      Except.ok [1, 2, 3] := by
  apply C1_write_read_roundtrip tC1 [1, 2, 3] ?hc ?he [3, 2, 1, 7] 4 ?hw
  case hc =>
    intro c hcq d d' hok
    injection hcq with hcq
    subst hcq
    simp only [comPrepend] at hok ⊢
    injection hok with hok
    subst hok
    rfl
  case he =>
    intro e heq d d' hok
    injection heq with heq
    subst heq
    simp only [encReverse] at hok ⊢
    injection hok with hok
    subst hok
    simp
  case hw => rfl

/-- Claim C6: the write path compresses before it encrypts (the encryption
stage consumes the compression stage's output), and the first failing stage
aborts the whole operation with that stage's distinct error while the sink
device is left untouched — in particular a compression or encryption
failure happens before any sink write. -/
theorem C6_write_stage_order_and_abort (t : Transformer) (fd : WDevice)
    (data : List Nat) :
    (∀ c, t.compressor = some c → t.IsCompressionEnabled = true →
      ∀ msg, c.Compress data = Except.error msg →
        t.Write fd data = (Except.error (GoError.compressFailed msg), fd))
    ∧ (∀ mid, compressStageW t data = Except.ok mid →
      ∀ e, t.encryptor = some e → t.IsEncryptionEnabled = true →
        ∀ msg, e.Encode t.secret mid = Except.error msg →
          t.Write fd data = (Except.error (GoError.encryptFailed msg), fd))
    ∧ (∀ tb, forwardTransform t data = Except.ok tb →
      ∀ msg, fd.failWrite = some msg →
        t.Write fd data = (Except.error (GoError.writeFailed msg), fd))
    ∧ (∀ c e, t.compressor = some c → t.encryptor = some e →
      t.IsCompressionEnabled = true → t.IsEncryptionEnabled = true →
      ∀ mid tb, c.Compress data = Except.ok mid →
        e.Encode t.secret mid = Except.ok tb → fd.failWrite = none →
          t.Write fd data =
            (Except.ok tb.length, { fd with contents := fd.contents ++ tb })) := by
  refine ⟨?_, ?_, ?_, ?_⟩
  · intro c hcb hcf msg hfail
    unfold Transformer.Write forwardTransform compressStageW
    rw [hcb, hcf]
    simp only [mapErr, hfail]
  · intro mid hmid e heb hef msg hfail
    unfold Transformer.Write forwardTransform encryptStageW
    rw [hmid, heb, hef]
    simp only [mapErr, hfail]
  · intro tb htb msg hfail
    unfold Transformer.Write
    rw [htb, hfail]
  · intro c e hcb heb hcf hef mid tb hcok heok hdev
    unfold Transformer.Write forwardTransform compressStageW encryptStageW
    rw [hcb, hcf, heb, hef]
    simp only [mapErr, hcok, heok, hdev]

/-- Witness for C6: with the always-failing compressor bound and the
compression flag set, `Write` aborts with the compress-stage error and the
device keeps its (empty) contents. -/
theorem C6_witness :
    Transformer.Write tC6 { contents := [], failWrite := none } [1] =
      (Except.error (GoError.compressFailed ("boom")),
        { contents := [], failWrite := none }) :=
  (C6_write_stage_order_and_abort tC6 { contents := [], failWrite := none } [1]).1
    comFail rfl rfl ("boom") rfl

/-- Claim C7: each of the four transform stages (write-side compress and
encrypt, read-side decrypt and decompress — shared by `Read` and `ReadAt`)
runs its capability exactly when its flag is set AND its capability is
bound; otherwise the stage passes the data through unchanged with no error.
When nothing is bound, the whole `Write` and `Read` paths move the raw
bytes with no error regardless of the flags. -/
theorem C7_stage_gating (t : Transformer) (d : List Nat) (fd : WDevice) :
    (¬(t.IsCompressionEnabled = true ∧ (∃ c, t.compressor = some c)) →
      compressStageW t d = Except.ok d)
    ∧ (¬(t.IsEncryptionEnabled = true ∧ (∃ e, t.encryptor = some e)) →
      encryptStageW t d = Except.ok d)
    ∧ (¬(t.IsEncryptionEnabled = true ∧ (∃ e, t.encryptor = some e)) →
      decryptStageR t d = Except.ok d)
    ∧ (¬(t.IsCompressionEnabled = true ∧ (∃ c, t.compressor = some c)) →
      decompressStageR t d = Except.ok d)
    ∧ (∀ c, t.compressor = some c → t.IsCompressionEnabled = true →
      compressStageW t d = mapErr GoError.compressFailed (c.Compress d)
      ∧ decompressStageR t d = mapErr GoError.decompressFailed (c.Decompress d))
    ∧ (∀ e, t.encryptor = some e → t.IsEncryptionEnabled = true →
      encryptStageW t d = mapErr GoError.encryptFailed (e.Encode t.secret d)
      ∧ decryptStageR t d = mapErr GoError.decryptFailed (e.Decode t.secret d))
    ∧ (t.compressor = none → t.encryptor = none → fd.failWrite = none →
      t.Write fd d = (Except.ok d.length, { fd with contents := fd.contents ++ d })
      ∧ Transformer.Read t { avail := d, failRead := none } d.length =
          Except.ok d) := by
  refine ⟨?_, ?_, ?_, ?_, ?_, ?_, ?_⟩
  · intro hng
    unfold compressStageW
    cases hcb : t.compressor with
    | none => simp only
    | some c =>
      cases hcf : t.IsCompressionEnabled with
      | false => simp only
      | true => exact absurd ⟨hcf, c, hcb⟩ hng
  · intro hng
    unfold encryptStageW
    cases heb : t.encryptor with
    | none => simp only
    | some e =>
      cases hef : t.IsEncryptionEnabled with
      | false => simp only
      | true => exact absurd ⟨hef, e, heb⟩ hng
  · intro hng
    unfold decryptStageR
    cases heb : t.encryptor with
    | none => simp only
    | some e =>
      cases hef : t.IsEncryptionEnabled with
      | false => simp only
      | true => exact absurd ⟨hef, e, heb⟩ hng
  · intro hng
    unfold decompressStageR
    cases hcb : t.compressor with
    | none => simp only
    | some c =>
      cases hcf : t.IsCompressionEnabled with
      | false => simp only
      | true => exact absurd ⟨hcf, c, hcb⟩ hng
  · intro c hcb hcf
    unfold compressStageW decompressStageR
    rw [hcb, hcf]
    exact ⟨rfl, rfl⟩
  · intro e heb hef
    unfold encryptStageW decryptStageR
    rw [heb, hef]
    exact ⟨rfl, rfl⟩
  · intro hcb heb hdev
    constructor
    · unfold Transformer.Write forwardTransform compressStageW encryptStageW
      rw [hcb, heb, hdev]
    · unfold Transformer.Read decryptStageR decompressStageR
      rw [hcb, heb]
      simp only [List.take_length, Nat.sub_self, List.replicate_zero,
        List.append_nil]

/-- Witness for C7: both flags enabled, nothing bound — every stage is a
no-op and `Write` stores the raw bytes with no error. -/
theorem C7_witness :
    compressStageW tC7 [1, 2] = Except.ok [1, 2] ∧
    encryptStageW tC7 [1, 2] = Except.ok [1, 2] ∧
    Transformer.Write tC7 { contents := [], failWrite := none } [1, 2] =
      (Except.ok 2, { contents := [1, 2], failWrite := none }) := by
  have h := C7_stage_gating tC7 [1, 2] { contents := [], failWrite := none }
  refine ⟨h.1 ?_, h.2.1 ?_, (h.2.2.2.2.2.2 rfl rfl rfl).1⟩
  · rintro ⟨-, c, hc⟩
    exact Option.noConfusion hc
  · rintro ⟨-, e, hee⟩
    exact Option.noConfusion hee

/-- Claim C10: on success `Write` returns the byte count the sink reported
for the transformed bytes — the post-transform length — so whenever an
active stage changes the length, the returned count differs from the length
of the caller's original payload. -/
theorem C10_write_returns_transformed_count (t : Transformer) (fd : WDevice)
    (data tb : List Nat) (hfw : forwardTransform t data = Except.ok tb)
    (hdev : fd.failWrite = none) :
    t.Write fd data = (Except.ok tb.length, { fd with contents := fd.contents ++ tb })
    ∧ (tb.length ≠ data.length → (t.Write fd data).1 ≠ Except.ok data.length) := by
  have hmain : t.Write fd data =
      (Except.ok tb.length, { fd with contents := fd.contents ++ tb }) := by
    unfold Transformer.Write
    rw [hfw, hdev]
  refine ⟨hmain, fun hne hcontra => ?_⟩
  rw [hmain] at hcontra
  simp only at hcontra
  injection hcontra with hcontra
  exact hne hcontra

/-- Witness for C10: the prepending compressor turns the 2-byte payload
`[1, 2]` into 3 stored bytes; `Write` returns 3, not 2. -/
theorem C10_witness :
    Transformer.Write tC10 { contents := [], failWrite := none } [1, 2] =
      (Except.ok 3, { contents := [7, 1, 2], failWrite := none })
    ∧ (Transformer.Write tC10 { contents := [], failWrite := none } [1, 2]).1 ≠
        Except.ok 2 := by
  have h := C10_write_returns_transformed_count tC10
    { contents := [], failWrite := none } [1, 2] [7, 1, 2] rfl rfl
  exact ⟨h.1, h.2 (by decide)⟩

/-- Counterexample to claim C8 as stated: `NewTombstoneSegment` applied to
a key of length `2^32` stores `KeySize = 0` (the `uint32(len(key))`
truncation), so `KeySize != len(Key)` for that constructed segment. -/
theorem C8_counterexample :
    (NewTombstoneSegment (List.replicate (2 ^ 32) 0)).KeySize = 0
    ∧ (NewTombstoneSegment (List.replicate (2 ^ 32) 0)).Key.length = 2 ^ 32
    ∧ (0 : Nat) ≠ 2 ^ 32 := by
  have hks : ∀ key : List Nat, (NewTombstoneSegment key).KeySize = key.length % 2 ^ 32 :=
    fun _ => rfl
  have hkey : ∀ key : List Nat, (NewTombstoneSegment key).Key = key :=
    fun _ => rfl
  refine ⟨?_, ?_, by norm_num⟩
  · rw [hks, List.length_replicate]
    exact Nat.mod_self _
  · rw [hkey, List.length_replicate]

/-- Claim C8 (amended): every segment either constructor produces satisfies
the size invariants in `uint32` arithmetic — `KeySize = len(Key) mod 2^32`,
`ValueSize = len(Value) mod 2^32`,
`Size = (26 + len(Key) + len(Value) + 4) mod 2^32` — and these are the
exact untruncated equalities whenever the lengths fit in `uint32`; a
tombstone segment over a key of length `k` additionally has
`ValueSize = 0`, `IsTombstone`, all non-key fields zero/empty, and
`Size = (26 + k + 4) mod 2^32`, equal to `26 + k + 4` when `30 + k < 2^32`. -/
theorem C8_segment_invariants_mod (encode : List Nat → Except String (List Nat))
    (key : List Nat) (kind : Kind) (bson : List Nat) (now ttl : Nat)
    (seg : Segment)
    (hseg : NewSegment encode key kind bson now ttl = Except.ok seg) :
    (seg.KeySize = seg.Key.length % 2 ^ 32
      ∧ seg.ValueSize = seg.Value.length % 2 ^ 32
      ∧ seg.Size = (26 + seg.Key.length + seg.Value.length + 4) % 2 ^ 32
      ∧ (seg.Key.length < 2 ^ 32 → seg.KeySize = seg.Key.length)
      ∧ (seg.Value.length < 2 ^ 32 → seg.ValueSize = seg.Value.length)
      ∧ (30 + seg.Key.length + seg.Value.length < 2 ^ 32 →
          seg.Size = 26 + seg.KeySize + seg.ValueSize + 4))
    ∧ ∀ k : List Nat,
        (NewTombstoneSegment k).KeySize = k.length % 2 ^ 32
        ∧ (NewTombstoneSegment k).ValueSize = 0
        ∧ (NewTombstoneSegment k).IsTombstone = true
        ∧ (NewTombstoneSegment k).Typ = Kind.Set
        ∧ (NewTombstoneSegment k).ExpiredAt = 0
        ∧ (NewTombstoneSegment k).CreatedAt = 0
        ∧ (NewTombstoneSegment k).Value = []
        ∧ (NewTombstoneSegment k).Size = (26 + k.length + 4) % 2 ^ 32
        ∧ (30 + k.length < 2 ^ 32 →
            (NewTombstoneSegment k).Size = 26 + k.length + 4) := by
  constructor
  · unfold NewSegment at hseg
    by_cases hk : kind = Kind.Unknown
    · rw [if_pos hk] at hseg
      exact Except.noConfusion hseg
    · rw [if_neg hk] at hseg
      cases henc : encode bson with
      | error e =>
        rw [henc] at hseg
        exact Except.noConfusion hseg
      | ok ed =>
        rw [henc] at hseg
        injection hseg with hseg
        subst hseg
        refine ⟨rfl, rfl, ?_, fun h => ?_, fun h => ?_, fun h => ?_⟩
        · show (26 + key.length % 2 ^ 32 + ed.length % 2 ^ 32 + 4) % 2 ^ 32 =
            (26 + key.length + ed.length + 4) % 2 ^ 32
          omega
        · exact Nat.mod_eq_of_lt h
        · exact Nat.mod_eq_of_lt h
        · show (26 + key.length % 2 ^ 32 + ed.length % 2 ^ 32 + 4) % 2 ^ 32 =
            26 + key.length % 2 ^ 32 + ed.length % 2 ^ 32 + 4
          have h' : 30 + key.length + ed.length < 2 ^ 32 := h
          omega
  · intro k
    refine ⟨rfl, rfl, rfl, rfl, rfl, rfl, rfl, ?_, fun h => ?_⟩
    · show (26 + k.length % 2 ^ 32 + 0 + 4) % 2 ^ 32 = (26 + k.length + 4) % 2 ^ 32
      omega
    · show (26 + k.length % 2 ^ 32 + 0 + 4) % 2 ^ 32 = 26 + k.length + 4
      omega

/-- Witness for C8 at a concrete construction (`key = [1, 2]`, one value
byte, identity encode, lengths far below `2^32`) and a concrete one-byte
tombstone key. -/
theorem C8_mod_witness :
    (segW.KeySize = segW.Key.length % 2 ^ 32
      ∧ segW.KeySize = segW.Key.length
      ∧ segW.Size = 26 + segW.KeySize + segW.ValueSize + 4)
    ∧ (NewTombstoneSegment [7]).ValueSize = 0
    ∧ (NewTombstoneSegment [7]).IsTombstone = true
    ∧ (NewTombstoneSegment [7]).Size = 26 + 1 + 4 := by
  have h := C8_segment_invariants_mod encIdent [1, 2] Kind.Text [9] 5 0 segW (by rfl)
  have ht := h.2 [7]
  exact ⟨⟨h.1.1, h.1.2.2.2.1 (by norm_num [segW]), h.1.2.2.2.2.2 (by norm_num [segW])⟩,
    ht.2.1, ht.2.2.1, ht.2.2.2.2.2.2.2.2 (by norm_num)⟩
